import Mathlib

/-!
Verification of the CAN telemetry core: a shallow embedding of the
message serialization layer (app.py), the persisted-frame query
(CANTelemetryApp.sqlite_read_via), the listener registry
(notifier_class.CustomNotifier) and the DBC filter derivation
(dbc_reader.DbcReader), together with theorems settling the design
claims about them.

Conventions of the embedding:
- machine/floating timestamps are modelled as integers (the claims only
  use their ordering and equality);
- byte strings are lists of naturals;
- Python exceptions are modelled with Except;
- mutation of a list argument is modelled by returning the updated list.
-/

/-- Frame is the in-memory CAN frame, mirroring the fields of a python-can
Message object used by the repository. -/
structure Frame where
  timestamp : Int
  arbitration_id : Int
  is_extended_id : Bool
  channel : Option Int
  dlc : Nat
  data : List Nat
  is_error_frame : Bool
  is_remote_frame : Bool
  is_fd : Bool
  bitrate_switch : Bool
  error_state_indicator : Bool
deriving DecidableEq, Repr

/-- mkMessage embeds the python-can Message constructor (the parts the
repository exercises): when data is absent or the frame is a remote frame
the stored payload is empty, and a missing dlc defaults to the payload
length.  Arguments are in the constructor's keyword order; the defaults of
the Python signature are always supplied explicitly by the callers
modelled here. -/
def mkMessage (timestamp : Int) (arbitration_id : Int) (is_extended_id : Bool)
    (channel : Option Int) (dlc : Option Nat) (data : Option (List Nat))
    (is_error_frame : Bool) (is_remote_frame : Bool) (is_fd : Bool)
    (bitrate_switch : Bool) (error_state_indicator : Bool) : Frame :=
  let d : List Nat :=
    if data = none ∨ is_remote_frame then [] else data.getD []
  { timestamp := timestamp
    arbitration_id := arbitration_id
    is_extended_id := is_extended_id
    channel := channel
    dlc := dlc.getD d.length
    data := d
    is_error_frame := is_error_frame
    is_remote_frame := is_remote_frame
    is_fd := is_fd
    bitrate_switch := bitrate_switch
    error_state_indicator := error_state_indicator }

/-- SerializedMsg is the JSON-compatible dictionary produced by
message_serializer in app.py: every Frame field under its own key, with
the data key possibly null. -/
structure SerializedMsg where
  timestamp : Int
  arbitration_id : Int
  is_extended_id : Bool
  channel : Option Int
  dlc : Nat
  data : Option (List Nat)
  is_error_frame : Bool
  is_remote_frame : Bool
  is_fd : Bool
  bitrate_switch : Bool
  error_state_indicator : Bool
deriving DecidableEq, Repr

/-- message_serializer from app.py: builds the dictionary of all fields.
The source guards data with `if msg.data is not None`; a constructed
Message always carries a (possibly empty) byte sequence, so the value
stored is the byte list itself. -/
def message_serializer (msg : Frame) : SerializedMsg :=
  { timestamp := msg.timestamp
    arbitration_id := msg.arbitration_id
    is_extended_id := msg.is_extended_id
    channel := msg.channel
    dlc := msg.dlc
    data := some msg.data
    is_error_frame := msg.is_error_frame
    is_remote_frame := msg.is_remote_frame
    is_fd := msg.is_fd
    bitrate_switch := msg.bitrate_switch
    error_state_indicator := msg.error_state_indicator }

/-- message_deserializer from app.py: reads every key back out of the
dictionary and calls the Message constructor with them. -/
def message_deserializer (d : SerializedMsg) : Frame :=
  mkMessage d.timestamp d.arbitration_id d.is_extended_id d.channel
    (some d.dlc) d.data d.is_error_frame d.is_remote_frame d.is_fd
    d.bitrate_switch d.error_state_indicator

/-- Validity invariant maintained by the Message constructor: a remote
frame carries no payload bytes. Every Frame built by mkMessage satisfies
it. -/
theorem mkMessage_remote_data_empty (ts aid : Int) (ext : Bool)
    (ch : Option Int) (dlc : Option Nat) (data : Option (List Nat))
    (err rtr fd brs esi : Bool) :
    (mkMessage ts aid ext ch dlc data err rtr fd brs esi).is_remote_frame = true →
    (mkMessage ts aid ext ch dlc data err rtr fd brs esi).data = [] := by
  intro h
  simp only [mkMessage] at h ⊢
  simp [h]

/-- C4: for every valid frame, including zero-length data and remote
frames (whose payload is absent, i.e. empty after construction),
deserializing the serialization reproduces the frame in every field. -/
theorem message_roundtrip (m : Frame)
    (hvalid : m.is_remote_frame = true → m.data = []) :
    message_deserializer (message_serializer m) = m := by
  cases m with
  | mk ts aid ext ch dlc data err rtr fd brs esi =>
    cases rtr with
    | false =>
      simp [message_deserializer, message_serializer, mkMessage]
    | true =>
      have hd : data = [] := hvalid rfl
      subst hd
      simp [message_deserializer, message_serializer, mkMessage]

/-! ## Persisted-frame store and sqlite_read_via (app.py) -/

/-- DbRow is one row of the append-only messages table created by the
SQLite log writer, with the columns named in the sqlite_read_via
docstring and in the design: ts, arbitration_id, extended, remote,
error, dlc, data. -/
structure DbRow where
  ts : Int
  arbitration_id : Int
  extended : Bool
  remote : Bool
  error : Bool
  dlc : Nat
  data : List Nat
deriving DecidableEq, Repr

/-- schemaCols is the set of column names of the messages table; a
statement naming any other column fails to prepare. -/
def schemaCols : List String :=
  ["ts", "arbitration_id", "extended", "remote", "error", "dlc", "data"]

/-- Cond is one WHERE condition as built by sqlite_read_via: an IN list,
a NOT IN list, or an equality against a bound parameter, each naming a
column by the string written into the SQL text. -/
inductive Cond where
  | inList (col : String) (vals : List Int)
  | notInList (col : String) (vals : List Int)
  | eqVal (col : String) (v : Int)
deriving DecidableEq, Repr

/-- condCol extracts the column name a condition refers to. -/
def condCol : Cond → String
  | .inList c _ => c
  | .notInList c _ => c
  | .eqVal c _ => c

/-- getColumn reads the integer value of a named column from a row,
with booleans stored as 0/1. The data column is a blob and has no
integer value; an unknown name has none either. -/
def getColumn (r : DbRow) : String → Option Int
  | "ts" => some r.ts
  | "arbitration_id" => some r.arbitration_id
  | "extended" => some (if r.extended then 1 else 0)
  | "remote" => some (if r.remote then 1 else 0)
  | "error" => some (if r.error then 1 else 0)
  | "dlc" => some (Int.ofNat r.dlc)
  | _ => none

/-- evalCond evaluates one prepared condition on a row. Conditions built
by sqlite_read_via only ever name integer columns, and statements naming
a column outside the schema are rejected before any row is evaluated, so
the fallback branch for a value-less column is unreachable. -/
def evalCond (r : DbRow) : Cond → Bool
  | .inList c vs =>
    match getColumn r c with
    | some x => vs.contains x
    | none => false
  | .notInList c vs =>
    match getColumn r c with
    | some x => !vs.contains x
    | none => false
  | .eqVal c v =>
    match getColumn r c with
    | some x => x == v
    | none => false

/-- rowMatches tells whether a row satisfies every condition (the
conditions are joined with AND in the SQL text). -/
def rowMatches (conds : List Cond) (r : DbRow) : Bool :=
  conds.all (fun c => evalCond r c)

/-- newerEq is the ORDER BY ts DESC comparison: a row comes no later
than another when its timestamp is at least as large. -/
def newerEq (a b : DbRow) : Prop := b.ts ≤ a.ts

instance : DecidableRel newerEq := fun a b => Int.decLe b.ts a.ts

instance : IsTotal DbRow newerEq := ⟨fun a b => le_total b.ts a.ts⟩

instance : IsTrans DbRow newerEq := ⟨fun _ _ _ hab hbc => le_trans hbc hab⟩

/-- pyTruthy models the Python truthiness test applied to the optional
id lists: None and the empty list are both falsy. -/
def pyTruthy (o : Option (List Int)) : Bool :=
  match o with
  | none => false
  | some l => !l.isEmpty

/-- buildConds builds the WHERE conditions exactly as sqlite_read_via
writes them into the SQL text, in source order: the white list becomes
an IN on arbitration_id, the black list a NOT IN on arbitration_id, and
a non-None is_error_frame an equality on the (nonexistent) column
literally named is_error_frame, with True/False bound as 1/0. -/
def buildConds (white_list_ids black_list_ids : Option (List Int))
    (is_error_frame : Option Bool) : List Cond :=
  (if pyTruthy white_list_ids then
    [Cond.inList "arbitration_id" (white_list_ids.getD [])] else []) ++
  (if pyTruthy black_list_ids then
    [Cond.notInList "arbitration_id" (black_list_ids.getD [])] else []) ++
  (match is_error_frame with
   | some b => [Cond.eqVal "is_error_frame" (if b then 1 else 0)]
   | none => [])

/-- rowToMessage converts one fetched row to a can.Message exactly as
the loop at the end of sqlite_read_via does: the constructor is called
with timestamp, arbitration_id, is_extended_id, is_remote_frame,
is_error_frame, dlc and data, leaving the remaining parameters at their
defaults. -/
def rowToMessage (r : DbRow) : Frame :=
  mkMessage r.ts r.arbitration_id r.extended none (some r.dlc)
    (some r.data) r.error r.remote false false false

/-- sqlite_read_via embeds CANTelemetryApp.sqlite_read_via: it builds
the filter conditions, prepares the statement (failing with the SQLite
error when a condition names a column the messages table does not
have), and otherwise returns the matching rows ordered by ts DESC,
truncated by LIMIT n, converted to Messages. -/
def sqlite_read_via (table : List DbRow) (n : Nat)
    (white_list_ids black_list_ids : Option (List Int))
    (is_error_frame : Option Bool) : Except String (List Frame) :=
  let conds := buildConds white_list_ids black_list_ids is_error_frame
  match conds.find? (fun c => !schemaCols.contains (condCol c)) with
  | some c => Except.error ("no such column: " ++ condCol c)
  | none =>
    Except.ok
      ((((table.filter (rowMatches conds)).insertionSort newerEq).take n).map
        rowToMessage)

/-- exRemoteFrame is a concrete remote frame with absent (empty) payload,
as constructed by the Message constructor. -/
def exRemoteFrame : Frame :=
  mkMessage 5 0x123 false (some 0) (some 4) none false true false false false

/-- C4 witness: the round trip evaluated on the concrete remote frame. -/
theorem message_roundtrip_witness :
    (exRemoteFrame.is_remote_frame = true → exRemoteFrame.data = []) ∧
      message_deserializer (message_serializer exRemoteFrame) = exRemoteFrame :=
  ⟨fun _ => rfl, message_roundtrip exRemoteFrame (fun _ => rfl)⟩

/-- C1: whenever sqlite_read_via is called with is_error_frame not None,
the built statement filters on a column literally named is_error_frame,
which the messages table does not have (its error-flag column is named
error, as the function's own docstring records); the query therefore
always fails to prepare, for every table, limit and id-list
combination, instead of succeeding and filtering by the flag. -/
theorem sqlite_error_filter_column_bug (table : List DbRow) (n : Nat)
    (w b : Option (List Int)) (v : Bool) :
    sqlite_read_via table n w b (some v) =
      Except.error "no such column: is_error_frame" := by
  rcases w with _ | ⟨_ | ⟨wh, wt⟩⟩ <;> rcases b with _ | ⟨_ | ⟨bh, bt⟩⟩ <;> rfl

/-- C10: passing an empty white list or an empty black list behaves
identically to omitting the filter: both are falsy in the source's
truthiness guards, so no condition is added in either case. -/
theorem sqlite_read_via_empty_id_lists (table : List DbRow) (n : Nat)
    (w b : Option (List Int)) (e : Option Bool) :
    sqlite_read_via table n (some []) b e = sqlite_read_via table n none b e ∧
      sqlite_read_via table n w (some []) e = sqlite_read_via table n w none e :=
  ⟨rfl, rfl⟩

/-- C3: a successful query with a non-empty black list never returns a
frame whose arbitration id is in the black list, whatever white list is
also supplied: the conditions are conjoined. -/
theorem sqlite_read_via_deny_list (table : List DbRow) (n : Nat)
    (w : Option (List Int)) (D : List Int) (e : Option Bool)
    (msgs : List Frame) (hD : D ≠ [])
    (hok : sqlite_read_via table n w (some D) e = Except.ok msgs) :
    ∀ m ∈ msgs, m.arbitration_id ∉ D := by
  intro m hm
  simp only [sqlite_read_via] at hok
  rcases hfind : (buildConds w (some D) e).find?
      (fun c => !schemaCols.contains (condCol c)) with _ | c
  · rw [hfind] at hok
    injection hok with hok
    subst hok
    rcases List.mem_map.mp hm with ⟨r, hr, rfl⟩
    have hr2 : r ∈ (table.filter
        (rowMatches (buildConds w (some D) e))).insertionSort newerEq :=
      List.mem_of_mem_take hr
    have hr3 : r ∈ table.filter (rowMatches (buildConds w (some D) e)) :=
      (List.mem_insertionSort newerEq).mp hr2
    have hmatch := (List.mem_filter.mp hr3).2
    have hblack : Cond.notInList "arbitration_id" D ∈
        buildConds w (some D) e := by
      cases D with
      | nil => exact absurd rfl hD
      | cons dh dt => simp [buildConds, pyTruthy]
    simp only [rowMatches, List.all_eq_true] at hmatch
    have heval := hmatch _ hblack
    simp only [evalCond, getColumn, Bool.not_eq_true'] at heval
    intro hmem
    simp only [rowToMessage, mkMessage] at hmem
    simp at heval
    exact heval hmem
  · rw [hfind] at hok
    cases hok

/-- C2: a successful query returns at most n frames, ordered
newest-first by timestamp, and returns all rows matching the filters
whenever fewer than n such rows exist. -/
theorem sqlite_read_via_limit_order (table : List DbRow) (n : Nat)
    (w b : Option (List Int)) (e : Option Bool) (msgs : List Frame)
    (hok : sqlite_read_via table n w b e = Except.ok msgs) :
    msgs.length ≤ n ∧
      List.Sorted (fun x y : Frame => y.timestamp ≤ x.timestamp) msgs ∧
      ((table.filter (rowMatches (buildConds w b e))).length < n →
        msgs.Perm ((table.filter (rowMatches (buildConds w b e))).map
          rowToMessage)) := by
  simp only [sqlite_read_via] at hok
  rcases hfind : (buildConds w b e).find?
      (fun c => !schemaCols.contains (condCol c)) with _ | c
  · rw [hfind] at hok
    injection hok with hok
    subst hok
    refine ⟨?_, ?_, ?_⟩
    · rw [List.length_map]
      exact List.length_take_le n _
    · have hs : List.Sorted newerEq
          ((table.filter (rowMatches (buildConds w b e))).insertionSort
            newerEq) :=
        List.sorted_insertionSort newerEq _
      have hs2 : List.Sorted newerEq
          (((table.filter (rowMatches (buildConds w b e))).insertionSort
            newerEq).take n) :=
        List.Pairwise.sublist (List.take_sublist n _) hs
      exact List.pairwise_map.mpr (hs2.imp (fun h => h))
    · intro hlt
      have hlen : ((table.filter (rowMatches (buildConds w b e))).insertionSort
          newerEq).length = (table.filter (rowMatches (buildConds w b e))).length :=
        (List.perm_insertionSort newerEq _).length_eq
      have htake : ((table.filter (rowMatches (buildConds w b e))).insertionSort
          newerEq).take n =
          (table.filter (rowMatches (buildConds w b e))).insertionSort newerEq :=
        List.take_of_length_le (by omega)
      rw [htake]
      exact (List.perm_insertionSort newerEq _).map rowToMessage
  · rw [hfind] at hok
    cases hok

/-- exRow1 and the rows below are a concrete persisted table for the
witnesses: two frames with distinct ids and increasing timestamps. -/
def exRow1 : DbRow := ⟨1, 0x100, false, false, false, 2, [1, 2]⟩

/-- exRow2 is the newer row of the concrete table. -/
def exRow2 : DbRow := ⟨2, 0x200, false, false, false, 1, [3]⟩

/-- exTable is the concrete persisted table used by the witnesses. -/
def exTable : List DbRow := [exRow1, exRow2]

/-- C2 witness: the limit, ordering and completeness conclusions
evaluated on the concrete two-row table with n = 5. -/
theorem sqlite_read_via_limit_order_witness :
    (sqlite_read_via exTable 5 none none none =
      Except.ok [rowToMessage exRow2, rowToMessage exRow1]) ∧
      ([rowToMessage exRow2, rowToMessage exRow1].length ≤ 5 ∧
        List.Sorted (fun x y : Frame => y.timestamp ≤ x.timestamp)
          [rowToMessage exRow2, rowToMessage exRow1] ∧
        ((exTable.filter (rowMatches (buildConds none none none))).length < 5 →
          List.Perm [rowToMessage exRow2, rowToMessage exRow1]
            ((exTable.filter (rowMatches (buildConds none none none))).map
              rowToMessage))) :=
  ⟨rfl, sqlite_read_via_limit_order exTable 5 none none none _ rfl⟩

/-- C3 witness: the deny-list conclusion evaluated on the concrete
table with black list containing the id of the newer row. -/
theorem sqlite_read_via_deny_list_witness :
    (([0x200] : List Int) ≠ []) ∧
      (sqlite_read_via exTable 5 none (some [0x200]) none =
        Except.ok [rowToMessage exRow1]) ∧
      ∀ m ∈ [rowToMessage exRow1], m.arbitration_id ∉ ([0x200] : List Int) :=
  ⟨by decide, rfl,
    sqlite_read_via_deny_list exTable 5 none [0x200] none _ (by decide) rfl⟩

/-! ## Listener registry (notifier_class.py) -/

/-- Listener models a registered callback: its observable effect on a
state, possibly raising an exception (modelled with Except). -/
def Listener (σ ε : Type) : Type := Frame → σ → Except ε σ

/-- add_listener from CustomNotifier: appends the new listener at the
end of the listener list. -/
def add_listener {σ ε : Type} (listeners : List (Listener σ ε))
    (new_listener : Listener σ ε) : List (Listener σ ε) :=
  listeners ++ [new_listener]

/-- notify_listeners from CustomNotifier: iterates over the listener
list in order, invoking each with the message; an exception raised by a
listener aborts the loop and propagates to the caller. -/
def notify_listeners {σ ε : Type} (listeners : List (Listener σ ε))
    (msg : Frame) (s : σ) : Except ε σ :=
  match listeners with
  | [] => Except.ok s
  | f :: rest =>
    match f msg s with
    | Except.ok s2 => notify_listeners rest msg s2
    | Except.error err => Except.error err

/-- logListener is the canonical observer: listener number i records
(i, msg) at the end of a shared log and never raises. -/
def logListener (i : Nat) : Listener (List (Nat × Frame)) Empty :=
  fun msg log => Except.ok (log ++ [(i, msg)])

/-- notify_logListeners computes a notification pass over the log
listeners: every id appends its record, in list order. -/
theorem notify_logListeners (ids : List Nat) (msg : Frame)
    (acc : List (Nat × Frame)) :
    notify_listeners (ids.map logListener) msg acc =
      Except.ok (acc ++ ids.map (fun i => (i, msg))) := by
  induction ids generalizing acc with
  | nil => simp [notify_listeners]
  | cons i rest ih => simp [notify_listeners, logListener, ih]

/-- C6: add_listener appends at the end, never reordering the existing
entries, and a notification pass invokes every currently registered
listener exactly once with the given frame, sequentially in
registration order, as observed by the canonical recording listeners. -/
theorem notify_listeners_in_order :
    (∀ (σ ε : Type) (ls : List (Listener σ ε)) (l : Listener σ ε),
        add_listener ls l = ls ++ [l]) ∧
      ∀ (ids : List Nat) (msg : Frame),
        notify_listeners (ids.map logListener) msg [] =
          Except.ok (ids.map (fun i => (i, msg))) :=
  ⟨fun _ _ _ _ => rfl, fun ids msg => by simpa using notify_logListeners ids msg []⟩

/-- notify_append splits a notification pass at a concatenation point:
the second half runs only if the first half finished without raising. -/
theorem notify_append {σ ε : Type} (ls1 ls2 : List (Listener σ ε))
    (msg : Frame) (s : σ) :
    notify_listeners (ls1 ++ ls2) msg s =
      match notify_listeners ls1 msg s with
      | Except.ok s2 => notify_listeners ls2 msg s2
      | Except.error err => Except.error err := by
  induction ls1 generalizing s with
  | nil => simp [notify_listeners]
  | cons f rest ih =>
    simp only [List.cons_append, notify_listeners]
    cases f msg s with
    | ok s2 => exact ih s2
    | error err => rfl

/-- C7: when a listener raises during a notification pass, the
exception propagates to the caller and none of the listeners
registered after the faulting one are invoked for that frame: the
result is the faulting listener's error, whatever the tail of the
registry contains. -/
theorem notify_listener_fault_propagates (σ ε : Type)
    (ls1 ls2 : List (Listener σ ε)) (f : Listener σ ε) (msg : Frame)
    (s s1 : σ) (err : ε)
    (h1 : notify_listeners ls1 msg s = Except.ok s1)
    (h2 : f msg s1 = Except.error err) :
    notify_listeners (ls1 ++ f :: ls2) msg s = Except.error err := by
  rw [notify_append, h1]
  simp [notify_listeners, h2]

/-- okListener is a concrete benign listener counting invocations. -/
def okListener : Listener Nat Nat := fun _ s => Except.ok (s + 1)

/-- badListener is a concrete faulting listener raising error 42. -/
def badListener : Listener Nat Nat := fun _ _ => Except.error 42

/-- C7 witness: with a benign listener, then a faulting one, then
another benign one, notification returns the fault and the final
listener is never reached. -/
theorem notify_listener_fault_propagates_witness :
    notify_listeners [okListener, badListener, okListener] exRemoteFrame 0 =
      Except.error 42 :=
  notify_listener_fault_propagates Nat Nat [okListener] [okListener]
    badListener exRemoteFrame 0 1 42 rfl rfl

/-- list_remove models Python list.remove: it deletes the first
occurrence of the value, or raises ValueError when the value is not
present. -/
def list_remove {Λ : Type} [DecidableEq Λ] (ls : List Λ) (l : Λ) :
    Except Unit (List Λ) :=
  match ls with
  | [] => Except.error ()
  | x :: rest =>
    if x = l then Except.ok rest
    else
      match list_remove rest l with
      | Except.ok r => Except.ok (x :: r)
      | Except.error e => Except.error e

/-- remove_listener from CustomNotifier: attempts list.remove and
catches the ValueError, logging the missing listener instead of
raising; the list is left unchanged in that case. -/
def remove_listener {Λ : Type} [DecidableEq Λ] (ls : List Λ) (l : Λ) :
    List Λ :=
  match list_remove ls l with
  | Except.ok r => r
  | Except.error _ => ls

/-- list_remove_not_mem: removing an absent value raises ValueError. -/
theorem list_remove_not_mem {Λ : Type} [DecidableEq Λ] (ls : List Λ)
    (l : Λ) (h : l ∉ ls) : list_remove ls l = Except.error () := by
  induction ls with
  | nil => rfl
  | cons x rest ih =>
    have hx : ¬(x = l) := fun he => h (he ▸ List.mem_cons_self x rest)
    have hrest : l ∉ rest := fun hm => h (List.mem_cons_of_mem x hm)
    simp only [list_remove, if_neg hx, ih hrest]

/-- list_remove_mem: removing a present value deletes exactly its first
occurrence. -/
theorem list_remove_mem {Λ : Type} [DecidableEq Λ] (ls : List Λ) (l : Λ)
    (h : l ∈ ls) :
    ∃ l1 l2, ls = l1 ++ l :: l2 ∧ l ∉ l1 ∧
      list_remove ls l = Except.ok (l1 ++ l2) := by
  induction ls with
  | nil => cases h
  | cons x rest ih =>
    by_cases hx : x = l
    · subst hx
      exact ⟨[], rest, rfl, List.not_mem_nil x, by simp [list_remove]⟩
    · have hrest : l ∈ rest := by
        rcases List.mem_cons.mp h with h1 | h2
        · exact absurd h1.symm hx
        · exact h2
      obtain ⟨l1, l2, hsplit, hnm, hrem⟩ := ih hrest
      refine ⟨x :: l1, l2, by simp [hsplit], ?_, ?_⟩
      · intro hm
        rcases List.mem_cons.mp hm with h1 | h2
        · exact hx h1.symm
        · exact hnm h2
      · simp only [list_remove, if_neg hx, hrem, List.cons_append]

/-- C9: removing a listener that is not registered does not raise and
leaves the list unchanged; removing a registered listener deletes
exactly its first occurrence. -/
theorem remove_listener_spec (Λ : Type) [DecidableEq Λ] (ls : List Λ)
    (l : Λ) :
    (l ∉ ls → remove_listener ls l = ls) ∧
      (l ∈ ls → ∃ l1 l2, ls = l1 ++ l :: l2 ∧ l ∉ l1 ∧
        remove_listener ls l = l1 ++ l2) :=
  ⟨fun h => by simp [remove_listener, list_remove_not_mem ls l h],
   fun h => by
    obtain ⟨l1, l2, hsplit, hnm, hrem⟩ := list_remove_mem ls l h
    exact ⟨l1, l2, hsplit, hnm, by simp [remove_listener, hrem]⟩⟩

/-- C9 witness: both branches evaluated on concrete lists over Nat. -/
theorem remove_listener_spec_witness :
    ((3 : Nat) ∉ [1, 2]) ∧ remove_listener [1, 2] (3 : Nat) = [1, 2] ∧
      ((1 : Nat) ∈ [1, 2, 1]) ∧
      ∃ l1 l2, ([1, 2, 1] : List Nat) = l1 ++ 1 :: l2 ∧ (1 : Nat) ∉ l1 ∧
        remove_listener [1, 2, 1] (1 : Nat) = l1 ++ l2 :=
  ⟨by decide, (remove_listener_spec Nat [1, 2] 3).1 (by decide), by decide,
    (remove_listener_spec Nat [1, 2, 1] 1).2 (by decide)⟩

/-! ## DBC filter derivation (dbc_reader.py) -/

/-- FrameDef is one message definition of the loaded DBC network: its
name and its arbitration id (the raw id attribute used by the source). -/
structure FrameDef where
  name : String
  arbitration_id : Int
deriving DecidableEq, Repr

/-- charsAgree tells whether the first character list matches the start
of the second, character by character. -/
def charsAgree : List Char → List Char → Bool
  | [], _ => true
  | _ :: _, [] => false
  | a :: t1, b :: t2 => a == b && charsAgree t1 t2

/-- charsContain tells whether the first character list occurs as a
contiguous segment of the second. -/
def charsContain (needle : List Char) : List Char → Bool
  | [] => charsAgree needle []
  | c :: rest => charsAgree needle (c :: rest) || charsContain needle rest

/-- strContains needle hay models the Python expression needle in hay
on strings: case-sensitive contiguous substring containment. -/
def strContains (needle hay : String) : Bool :=
  charsContain needle.data hay.data

/-- add_filters from DbcReader: loops over all message definitions of
the network and appends to the filters list the arbitration id of every
definition whose name contains msg. The filters argument is mutated in
place in the source; the updated list is returned here. -/
def add_filters (frames : List FrameDef) (msg : String)
    (filters : List Int) : List Int :=
  match frames with
  | [] => filters
  | f :: rest =>
    if strContains msg f.name then
      add_filters rest msg (filters ++ [f.arbitration_id])
    else
      add_filters rest msg filters

/-- clear_filters from DbcReader: empties the filters list. -/
def clear_filters (filters : List Int) : List Int :=
  match filters with
  | _ => []

/-- add_filters_acc characterizes the loop of add_filters for an
arbitrary accumulator. -/
theorem add_filters_acc (frames : List FrameDef) (msg : String)
    (filters : List Int) :
    add_filters frames msg filters =
      filters ++ (frames.filter (fun f => strContains msg f.name)).map
        (fun f => f.arbitration_id) := by
  induction frames generalizing filters with
  | nil => simp [add_filters]
  | cons f rest ih =>
    by_cases h : strContains msg f.name = true
    · simp [add_filters, h, ih, List.filter_cons]
    · simp [add_filters, h, ih, List.filter_cons]

/-- exDefs is the example message-definition database of the design
notes: names M1_CellVoltages and M2_Current with ids 0x100 and 0x200. -/
def exDefs : List FrameDef :=
  [⟨"M1_CellVoltages", 0x100⟩, ⟨"M2_Current", 0x200⟩]

/-- C8: building a filter from an initially empty list collects exactly
the arbitration ids of the definitions whose name contains the given
substring, case-sensitively; on the example database the substring
CellVoltages yields exactly 0x100 and its lower-case variant yields
nothing; clear_filters always leaves the list empty. -/
theorem add_filters_substring_match :
    (∀ (frames : List FrameDef) (msg : String),
        add_filters frames msg [] =
          (frames.filter (fun f => strContains msg f.name)).map
            (fun f => f.arbitration_id)) ∧
      add_filters exDefs "CellVoltages" [] = [0x100] ∧
      add_filters exDefs "cellvoltages" [] = [] ∧
      ∀ filters : List Int, clear_filters filters = [] :=
  ⟨fun frames msg => by simpa using add_filters_acc frames msg [],
   by decide, by decide, fun _ => rfl⟩
